import Mathlib

/-!
Shallow embedding of the scraping core of the entra-change-tracker repository
(src/python/lib/browser_helpers.py and src/python/lib/scraper.py), together
with theorems settling the frozen claims about it.

The browser is abstracted as an environment that answers the queries the code
makes (rendered rows per scroll pass, elapsed wall-clock milliseconds, the
outcome of each detail-extraction call).  All control flow — index derivation,
the seen-index set, the retry loop, idle-pass counting, the global timeout —
is translated directly from the Python source.
-/

namespace Entra

/-- A rendered cell inside a row's field container, as observed through
`cell.get_attribute("data-automation-key")` and `cell.inner_text()`. -/
structure RenderedCell where
  automationKey : Option String
  innerText : String
deriving DecidableEq, Repr

/-- A rendered row of the virtualized DetailsList, as observed through
`row.get_attribute('data-item-index')`, `row.get_attribute('id')` and its
cell list.  `none` models an absent attribute, `some ""` an empty one. -/
structure RenderedRow where
  dataItemIndex : Option String
  id : Option String
  cells : List RenderedCell
deriving DecidableEq, Repr

/-- Python `s.strip()`: remove leading and trailing whitespace. -/
def pyStrip (s : String) : String :=
  String.mk (((s.data.dropWhile Char.isWhitespace).reverse.dropWhile Char.isWhitespace).reverse)

/-- Python `s.lower()` (ASCII case folding). -/
def pyLower (s : String) : String :=
  String.mk (s.data.map Char.toLower)

/-- Python `s.startswith(p)`. -/
def pyStartsWith (s p : String) : Bool :=
  decide (s.data.take p.data.length = p.data)

/-- Python `s[n:]` (drop the first `n` characters). -/
def pyDrop (s : String) (n : Nat) : String :=
  String.mk (s.data.drop n)

/-- Python falsiness of an optional attribute string (`if not idx:` is taken
both when the attribute is absent, `None`, and when it is the empty string). -/
def attrFalsy : Option String → Bool
  | none => true
  | some s => s == ""

/-- Python `s.isdigit()` restricted to ASCII: non-empty and all decimal digits
(browser_helpers.py line 574). -/
def pyIsDigit (s : String) : Bool :=
  !s.data.isEmpty && s.data.all Char.isDigit

/-- Python `int(s)` on a decimal-digit string. -/
def digitsToNat (s : String) : Nat :=
  s.data.foldl (fun n c => n * 10 + (c.toNat - 48)) 0

/-- The regex search `re.search(r'-(\d+)$', row_id)` of browser_helpers.py
line 570: succeeds exactly when the string ends in a non-empty run of digits
immediately preceded by a hyphen, capturing that digit run. -/
def trailingDigitsMatch (s : String) : Option String :=
  let rcs := s.data.reverse
  let digs := rcs.takeWhile Char.isDigit
  if digs.isEmpty then none
  else if (rcs.dropWhile Char.isDigit).head? = some '-' then
    some (String.mk digs.reverse)
  else none

/-- Index derivation for one rendered row, browser_helpers.py lines 566-575:
primary source `data-item-index`; when that is falsy (absent or empty), fall
back to the trailing digits of the element id; finally
`int(idx) if idx and idx.isdigit() else None`. -/
def deriveIdx (r : RenderedRow) : Option Nat :=
  let idx0 : Option String :=
    if attrFalsy r.dataItemIndex then
      match r.id with
      | some rid =>
        if rid ≠ "" then
          match trailingDigitsMatch rid with
          | some d => some d
          | none => r.dataItemIndex
        else r.dataItemIndex
      | none => r.dataItemIndex
    else r.dataItemIndex
  match idx0 with
  | some s => if pyIsDigit s then some (digitsToNat s) else none
  | none => none

/-- Python dict assignment `obj[k] = v` on an insertion-ordered association
list: overwrite in place if the key exists, otherwise append. -/
def dictSet : List (String × String) → String → String → List (String × String)
  | [], k, v => [(k, v)]
  | (k', v') :: rest, k, v =>
    if k' = k then (k, v) :: rest else (k', v') :: dictSet rest k v

/-- Python dict read `obj.get(k)` on the association-list model. -/
def dictGet : List (String × String) → String → Option String
  | [], _ => none
  | (k', v') :: rest, k => if k' = k then some v' else dictGet rest k

/-- Key chosen for the i-th cell, browser_helpers.py lines 588-590:
the `data-automation-key` attribute when truthy, else the positional `col{i}`. -/
def cellKey (i : Nat) (c : RenderedCell) : String :=
  match c.automationKey with
  | some k => if k = "" then "col" ++ toString i else k
  | none => "col" ++ toString i

/-- The cell loop of browser_helpers.py lines 586-592: builds the row object
from the rendered cells, trimming each cell text. -/
def buildFields (cells : List RenderedCell) : List (String × String) :=
  cells.enum.foldl (fun obj ic => dictSet obj (cellKey ic.1 ic.2) (pyStrip ic.2.innerText)) []

/-- The result of one `extract_row_details` call. -/
structure Details where
  url : String
  description : String
  overview : String
deriving DecidableEq, Repr

/-- The all-empty details value `{'url': '', 'description': '', 'overview': ''}`. -/
def emptyDetails : Details := ⟨"", "", ""⟩

/-- The three assignments of browser_helpers.py lines 610-612 that attach the
detail fields to the row object. -/
def attachDetails (obj : List (String × String)) (d : Details) : List (String × String) :=
  dictSet (dictSet (dictSet obj "url" d.url) "description" d.description) "overview" d.overview

/-- The retry loop body of browser_helpers.py lines 598-608, parameterised by
the outcome `f a` of the extraction call at (1-based) attempt `a` and the
number of attempts still available.  Returns the last details obtained and the
number of calls made. -/
def retryGo (f : Nat → Details) : Nat → Nat → Details × Nat
  | _, 0 => (emptyDetails, 0)
  | attempt, remaining + 1 =>
    let d := f attempt
    if d.description ≠ "" then (d, 1)
    else if remaining = 0 then (d, 1)
    else
      let r := retryGo f (attempt + 1) remaining
      (r.1, r.2 + 1)

/-- `for attempt in range(1, maxRetryAttempts + 1)` with break on a non-empty
description: the full retry loop starting at attempt 1. -/
def runRetries (f : Nat → Details) (maxAttempts : Nat) : Details × Nat :=
  retryGo f 1 maxAttempts

/-- What one scroll pass observes: the currently rendered rows and whether the
scroll container reports being at the bottom (within the 2px tolerance the
page script applies). -/
structure PassView where
  rows : List RenderedRow
  atBottom : Bool

/-- Abstract browser environment for one walk: rendered view per pass, elapsed
wall-clock milliseconds at the start of each pass's timeout check, and the
details produced by the `extract_row_details` call for a given row index and
(1-based) attempt number. -/
structure WalkEnv where
  view : Nat → PassView
  elapsedMs : Nat → Nat
  details : Nat → Nat → Details

/-- The `scraperConfig` tunables read by `scrape_details_list`. -/
structure ScraperConfig where
  totalTimeoutMs : Nat
  maxIdlePasses : Nat
  maxRetryAttempts : Nat
deriving DecidableEq, Repr

/-- The `for row in visible_rows:` body of browser_helpers.py lines 564-614,
threading the seen-index set, the `new_rows_found` flag and the accumulated
rows (each paired with the index it was derived from). -/
def processRows (env : WalkEnv) (cfg : ScraperConfig) (extract : Bool) :
    List RenderedRow → List Nat → Bool → List (Nat × List (String × String)) →
    List Nat × Bool × List (Nat × List (String × String))
  | [], seen, newFound, acc => (seen, newFound, acc)
  | r :: rest, seen, newFound, acc =>
    match deriveIdx r with
    | none => processRows env cfg extract rest seen newFound acc
    | some i =>
      if i ∈ seen then processRows env cfg extract rest seen newFound acc
      else
        let obj := buildFields r.cells
        let det := if extract then (runRetries (env.details i) cfg.maxRetryAttempts).1
                   else emptyDetails
        processRows env cfg extract rest (i :: seen) true (acc ++ [(i, attachDetails obj det)])

/-- The walker's loop state: seen-index set, idle-pass counter, accumulated rows. -/
structure WalkState where
  seen : List Nat
  idlePasses : Nat
  rows : List (Nat × List (String × String))

/-- Initial walker state (browser_helpers.py lines 534-537). -/
def initWalkState : WalkState := ⟨[], 0, []⟩

/-- The `while True:` loop of browser_helpers.py lines 554-653, with explicit
fuel bounding the number of passes.  Each iteration: global timeout check
(return accumulated rows), process the visible rows, update the idle counter,
stop when at bottom with the idle threshold reached, else scroll and repeat.
`none` means the fuel ran out before the loop stopped. -/
def scrapeLoop (env : WalkEnv) (cfg : ScraperConfig) (extract : Bool) :
    Nat → Nat → WalkState → Option (List (Nat × List (String × String)))
  | 0, _, _ => none
  | fuel + 1, pass, st =>
    if cfg.totalTimeoutMs < env.elapsedMs pass then some st.rows
    else
      let v := env.view pass
      let res := processRows env cfg extract v.rows st.seen false st.rows
      let idle' := if res.2.1 then 0 else st.idlePasses + 1
      if v.atBottom = true ∧ cfg.maxIdlePasses ≤ idle' then some res.2.2
      else scrapeLoop env cfg extract fuel (pass + 1) ⟨res.1, idle', res.2.2⟩

/-- One whole walk, keeping the derived index paired with each emitted row.
The fuel `totalTimeoutMs + 2` suffices whenever wall-clock time advances
strictly between passes. -/
def scrapeTrace (env : WalkEnv) (cfg : ScraperConfig) (extract : Bool) :
    Option (List (Nat × List (String × String))) :=
  scrapeLoop env cfg extract (cfg.totalTimeoutMs + 2) 0 initWalkState

/-- `scrape_details_list`: the rows actually returned (browser_helpers.py
line 656), i.e. the trace with the bookkeeping indices dropped. -/
def scrape_details_list (env : WalkEnv) (cfg : ScraperConfig) (extract : Bool) :
    Option (List (List (String × String))) :=
  (scrapeTrace env cfg extract).map (List.map Prod.snd)

/-- A rendered row that the walker's body skips for a given seen-set:
its index cannot be derived or is already seen. -/
def rowSkipped (seen : List Nat) (r : RenderedRow) : Bool :=
  match deriveIdx r with
  | none => true
  | some i => decide (i ∈ seen)

/-- Environment of one `extract_row_details` invocation
(browser_helpers.py lines 441-512): whether `open_details_pane` raises,
whether the iframe enumeration inside `find_correct_iframe` raises, whether a
matching details frame is found, and the raw texts the three pane extractors
produce from that frame. -/
structure RowDetailEnv where
  openRaises : Bool
  findRaises : Bool
  frameFound : Bool
  overviewText : String
  urlText : String
  descriptionText : String
deriving DecidableEq, Repr

/-- `extract_row_details`, browser_helpers.py lines 441-512.  Besides the
returned dictionary, the embedding records two observations of the close
behaviour: whether the normal `close_details_pane` call of the success path
ran, and whether the close-fallback chain of the `except` block
(lines 493-510) was attempted.  Control flow from the source: an exception in
the open or locate step lands in the `except` block (fallback chain, then
all-empty result); a `None` details frame returns all-empty directly
(lines 469-471); otherwise the three extractors run, the pane is closed, and
the stripped fields are returned. -/
def extract_row_details (env : RowDetailEnv) : Details × Bool × Bool :=
  if env.openRaises then (emptyDetails, false, true)
  else if env.findRaises then (emptyDetails, false, true)
  else if env.frameFound = false then (emptyDetails, false, false)
  else (⟨pyStrip env.urlText, pyStrip env.descriptionText, pyStrip env.overviewText⟩,
        true, false)

/-- Environment of one `extract_overview` call (browser_helpers.py
lines 204-233): whether the details frame is already detached, whether some
locator step raises, the landmark `h3` match count, the span count under its
parent, and the first span's inner text. -/
structure OverviewEnv where
  detached : Bool
  raises : Bool
  h3Count : Nat
  spanCount : Nat
  spanText : String
deriving DecidableEq, Repr

/-- `extract_overview`, browser_helpers.py lines 204-233. -/
def extract_overview (env : OverviewEnv) : String :=
  if env.detached then ""
  else if env.raises then ""
  else if 0 < env.h3Count then
    if 0 < env.spanCount then
      if env.spanText = "" then "" else env.spanText
    else ""
  else ""

/-- Environment of one `extract_url` call (browser_helpers.py lines 236-265):
the link's `href` attribute is `none` when absent. -/
structure UrlEnv where
  detached : Bool
  raises : Bool
  h3Count : Nat
  linkCount : Nat
  hrefAttr : Option String
deriving DecidableEq, Repr

/-- `extract_url`, browser_helpers.py lines 236-265. -/
def extract_url (env : UrlEnv) : String :=
  if env.detached then ""
  else if env.raises then ""
  else if 0 < env.h3Count then
    if 0 < env.linkCount then
      match env.hrefAttr with
      | some h => if h = "" then "" else h
      | none => ""
    else ""
  else ""

/-- Environment of one `extract_description` call (browser_helpers.py
lines 268-309): the "What is changing" landmark is tried first; only when its
`h3` count is zero is the roadmap landmark tried. -/
structure DescriptionEnv where
  detached : Bool
  raises : Bool
  whatChangingH3Count : Nat
  nextSpanCount : Nat
  nextSpanText : String
  roadmapH3Count : Nat
  paragraphCount : Nat
  paragraphText : String
deriving DecidableEq, Repr

/-- `extract_description`, browser_helpers.py lines 268-309. -/
def extract_description (env : DescriptionEnv) : String :=
  if env.detached then ""
  else if env.raises then ""
  else if 0 < env.whatChangingH3Count then
    if 0 < env.nextSpanCount then
      if env.nextSpanText = "" then "" else env.nextSpanText
    else ""
  else if 0 < env.roadmapH3Count then
    if 0 < env.paragraphCount then
      if env.paragraphText = "" then "" else env.paragraphText
    else ""
  else ""

/-- The mapping scan of scraper.py lines 38-41: first entry of the
release-type mapping (in insertion order) whose key, lowercased, is a
case-insensitive starting segment of the title. -/
def findReleaseKey (title : String) : List (String × String) → Option (String × String)
  | [] => none
  | (k, v) :: rest =>
    if pyStartsWith (pyLower title) (pyLower k) then some (k, v)
    else findReleaseKey title rest

/-- The separator loop of scraper.py lines 43-47: remove at most one leading
separator character (with break after the first hit), re-stripping after it. -/
def removeLeadingSep (r : String) : String :=
  if pyStartsWith r "-" then pyStrip (pyDrop r 1)
  else if pyStartsWith r ":" then pyStrip (pyDrop r 1)
  else if pyStartsWith r "–" then pyStrip (pyDrop r 1)
  else if pyStartsWith r "—" then pyStrip (pyDrop r 1)
  else r

/-- `extract_release_type_from_title`, scraper.py lines 24-59, with the
configured release-type mapping passed explicitly.  The unmatched branch's
warning print (lines 51-57) has no effect on the returned value and is not
modelled. -/
def extract_release_type_from_title (mapping : List (String × String)) (title : String) :
    String × String :=
  match findReleaseKey title mapping with
  | some kv => (kv.2, removeLeadingSep (pyStrip (pyDrop title kv.1.data.length)))
  | none => ("", title)

/-- Modelled from the claim wording of C9 only (not from the source): index
derivation where the id fallback applies solely when the `data-item-index`
attribute is missing (absent), not when it is present but empty. -/
def claimDeriveIdx (r : RenderedRow) : Option Nat :=
  match r.dataItemIndex with
  | some s => if pyIsDigit s then some (digitsToNat s) else none
  | none =>
    match r.id with
    | some rid =>
      match trailingDigitsMatch rid with
      | some d => if pyIsDigit d then some (digitsToNat d) else none
      | none => none
    | none => none

/-- Shape of every row object the walker emits: column fields built from some
rendered cell list with the three detail fields attached, the details being
all-empty whenever detail extraction is disabled. -/
def EmittedShape (extract : Bool) (p : Nat × List (String × String)) : Prop :=
  ∃ cells det, p.2 = attachDetails (buildFields cells) det ∧
    (extract = false → det = emptyDetails)

/-! ## Concrete fixtures used by witness theorems -/

/-- A rendered row with `data-item-index` 0 and no cells. -/
def rowA : RenderedRow := ⟨some "0", none, []⟩

/-- A rendered row with `data-item-index` 1 and one titled cell. -/
def rowB : RenderedRow := ⟨some "1", none, [⟨some "title", " Hello "⟩]⟩

/-- A rendered row with a present-but-empty `data-item-index` and an id with
trailing digits. -/
def rowC9 : RenderedRow := ⟨some "", some "row-3", []⟩

/-- Environment showing rows `rowA` and `rowB` on every pass, at bottom, with
one elapsed millisecond per pass. -/
def envW : WalkEnv := ⟨fun _ => ⟨[rowA, rowB], true⟩, fun n => n, fun _ _ => emptyDetails⟩

/-- Small configuration: 5 ms budget, 1 idle pass, 3 retry attempts. -/
def cfgW : ScraperConfig := ⟨5, 1, 3⟩

/-- The trace `envW`/`cfgW` produces with detail extraction disabled. -/
def rowsW : List (Nat × List (String × String)) :=
  [(0, [("url", ""), ("description", ""), ("overview", "")]),
   (1, [("title", "Hello"), ("url", ""), ("description", ""), ("overview", "")])]

/-- Environment that never reaches the bottom and shows no rows: only the
global timeout can stop the walk. -/
def envC2 : WalkEnv := ⟨fun _ => ⟨[], false⟩, fun n => n, fun _ _ => emptyDetails⟩

/-- Configuration with a 3 ms budget. -/
def cfgC2 : ScraperConfig := ⟨3, 5, 2⟩

/-- Environment that keeps rendering only the already-seen `rowA`, at bottom. -/
def envC3 : WalkEnv := ⟨fun _ => ⟨[rowA], true⟩, fun n => n, fun _ _ => emptyDetails⟩

/-- Configuration with an idle threshold of 2 passes. -/
def cfgC3 : ScraperConfig := ⟨100, 2, 3⟩

/-- A mid-walk state that has already seen and emitted index 0. -/
def stC3 : WalkState := ⟨[0], 0, [(0, [("url", "x")])]⟩

/-- A non-empty details value. -/
def detC4 : Details := ⟨"u", "d", "o"⟩

/-- Environment whose detail extraction succeeds only on the second attempt. -/
def envC4 : WalkEnv :=
  ⟨fun _ => ⟨[], true⟩, fun n => n, fun _ a => if a = 2 then detC4 else emptyDetails⟩

/-- Configuration with 3 retry attempts. -/
def cfgC4 : ScraperConfig := ⟨10, 1, 3⟩

/-- Environment whose detail extraction always yields an empty description
(but non-empty url and overview). -/
def envC5 : WalkEnv :=
  ⟨fun _ => ⟨[], true⟩, fun n => n, fun _ _ => ⟨"u", "", "o"⟩⟩

/-- Row-detail environment in which opening the pane raises. -/
def rdOpenRaises : RowDetailEnv := ⟨true, false, true, "o", "u", "d"⟩

/-- Row-detail environment in which everything works but no matching details
frame is found. -/
def rdNoFrame : RowDetailEnv := ⟨false, false, false, "o", "u", "d"⟩

/-! ## Helper lemmas -/

theorem dictGet_dictSet_self (l : List (String × String)) (k v : String) :
    dictGet (dictSet l k v) k = some v := by
  induction l with
  | nil => simp [dictSet, dictGet]
  | cons p rest ih =>
    obtain ⟨k', v'⟩ := p
    by_cases h : k' = k
    · simp [dictSet, h, dictGet]
    · simp [dictSet, h, dictGet, ih]

theorem dictGet_dictSet_ne (l : List (String × String)) (k k' v : String) (h : k' ≠ k) :
    dictGet (dictSet l k' v) k = dictGet l k := by
  induction l with
  | nil => simp [dictSet, dictGet, h]
  | cons p rest ih =>
    obtain ⟨k₀, v₀⟩ := p
    by_cases h0 : k₀ = k'
    · simp [dictSet, h0, dictGet, h]
    · simp only [dictSet, if_neg h0]
      by_cases h1 : k₀ = k
      · simp [dictGet, h1]
      · simp [dictGet, h1, ih]

theorem dictGet_attachDetails_url (obj : List (String × String)) (d : Details) :
    dictGet (attachDetails obj d) "url" = some d.url := by
  unfold attachDetails
  rw [dictGet_dictSet_ne _ _ _ _ (by decide), dictGet_dictSet_ne _ _ _ _ (by decide),
    dictGet_dictSet_self]

theorem dictGet_attachDetails_description (obj : List (String × String)) (d : Details) :
    dictGet (attachDetails obj d) "description" = some d.description := by
  unfold attachDetails
  rw [dictGet_dictSet_ne _ _ _ _ (by decide), dictGet_dictSet_self]

theorem dictGet_attachDetails_overview (obj : List (String × String)) (d : Details) :
    dictGet (attachDetails obj d) "overview" = some d.overview := by
  unfold attachDetails
  rw [dictGet_dictSet_self]

theorem processRows_nil (env : WalkEnv) (cfg : ScraperConfig) (extract : Bool)
    (seen : List Nat) (b : Bool) (acc : List (Nat × List (String × String))) :
    processRows env cfg extract [] seen b acc = (seen, b, acc) := rfl

theorem processRows_cons_none (env : WalkEnv) (cfg : ScraperConfig) (extract : Bool)
    (r : RenderedRow) (rest : List RenderedRow) (seen : List Nat) (b : Bool)
    (acc : List (Nat × List (String × String))) (h : deriveIdx r = none) :
    processRows env cfg extract (r :: rest) seen b acc
      = processRows env cfg extract rest seen b acc := by
  simp only [processRows]
  rw [h]

theorem processRows_cons_seen (env : WalkEnv) (cfg : ScraperConfig) (extract : Bool)
    (r : RenderedRow) (rest : List RenderedRow) (seen : List Nat) (b : Bool)
    (acc : List (Nat × List (String × String))) (i : Nat)
    (h : deriveIdx r = some i) (hs : i ∈ seen) :
    processRows env cfg extract (r :: rest) seen b acc
      = processRows env cfg extract rest seen b acc := by
  simp only [processRows]
  rw [h]
  simp [hs]

theorem processRows_cons_new (env : WalkEnv) (cfg : ScraperConfig) (extract : Bool)
    (r : RenderedRow) (rest : List RenderedRow) (seen : List Nat) (b : Bool)
    (acc : List (Nat × List (String × String))) (i : Nat)
    (h : deriveIdx r = some i) (hs : i ∉ seen) :
    processRows env cfg extract (r :: rest) seen b acc
      = processRows env cfg extract rest (i :: seen) true
          (acc ++ [(i, attachDetails (buildFields r.cells)
              (if extract then (runRetries (env.details i) cfg.maxRetryAttempts).1
               else emptyDetails))]) := by
  simp only [processRows]
  rw [h]
  simp [hs]

theorem processRows_skip_head (env : WalkEnv) (cfg : ScraperConfig) (extract : Bool)
    (r : RenderedRow) (rest : List RenderedRow) (seen : List Nat) (b : Bool)
    (acc : List (Nat × List (String × String))) (h : rowSkipped seen r = true) :
    processRows env cfg extract (r :: rest) seen b acc
      = processRows env cfg extract rest seen b acc := by
  unfold rowSkipped at h
  cases hd : deriveIdx r with
  | none => exact processRows_cons_none env cfg extract r rest seen b acc hd
  | some i =>
    rw [hd] at h
    simp only [decide_eq_true_eq] at h
    exact processRows_cons_seen env cfg extract r rest seen b acc i hd h

theorem processRows_skip_all (env : WalkEnv) (cfg : ScraperConfig) (extract : Bool) :
    ∀ (rows : List RenderedRow) (seen : List Nat) (b : Bool)
      (acc : List (Nat × List (String × String))),
    rows.all (rowSkipped seen) = true →
    processRows env cfg extract rows seen b acc = (seen, b, acc) := by
  intro rows
  induction rows with
  | nil => intro seen b acc _; rfl
  | cons r rest ih =>
    intro seen b acc h
    rw [List.all_cons, Bool.and_eq_true] at h
    rw [processRows_skip_head env cfg extract r rest seen b acc h.1]
    exact ih seen b acc h.2

theorem processRows_inv (env : WalkEnv) (cfg : ScraperConfig) (extract : Bool) :
    ∀ (rows : List RenderedRow) (seen : List Nat) (b : Bool)
      (acc : List (Nat × List (String × String))),
    seen.Nodup → (acc.map Prod.fst).Nodup →
    (∀ i ∈ acc.map Prod.fst, i ∈ seen) →
    (processRows env cfg extract rows seen b acc).1.Nodup ∧
    ((processRows env cfg extract rows seen b acc).2.2.map Prod.fst).Nodup ∧
    (∀ i ∈ (processRows env cfg extract rows seen b acc).2.2.map Prod.fst,
        i ∈ (processRows env cfg extract rows seen b acc).1) := by
  intro rows
  induction rows with
  | nil => intro seen b acc h1 h2 h3; exact ⟨h1, h2, h3⟩
  | cons r rest ih =>
    intro seen b acc h1 h2 h3
    cases hd : deriveIdx r with
    | none =>
      rw [processRows_cons_none env cfg extract r rest seen b acc hd]
      exact ih seen b acc h1 h2 h3
    | some i =>
      by_cases hs : i ∈ seen
      · rw [processRows_cons_seen env cfg extract r rest seen b acc i hd hs]
        exact ih seen b acc h1 h2 h3
      · rw [processRows_cons_new env cfg extract r rest seen b acc i hd hs]
        refine ih _ _ _ ?_ ?_ ?_
        · exact List.Nodup.cons hs h1
        · have hnotin : i ∉ acc.map Prod.fst := fun hmem => hs (h3 i hmem)
          simp [List.nodup_append, h2, hnotin]
        · intro j hj
          simp only [List.map_append, List.map_cons, List.map_nil, List.mem_append,
            List.mem_singleton] at hj
          rcases hj with hj | hj
          · exact List.mem_cons_of_mem i (h3 j hj)
          · simp [hj]

theorem retryGo_success (f : Nat → Details) :
    ∀ (k attempt remaining : Nat),
    k + 1 ≤ remaining →
    (∀ a, attempt ≤ a → a < attempt + k → (f a).description = "") →
    (f (attempt + k)).description ≠ "" →
    retryGo f attempt remaining = (f (attempt + k), k + 1) := by
  intro k
  induction k with
  | zero =>
    intro attempt remaining hle hempty hsucc
    obtain ⟨rem, rfl⟩ : ∃ rem, remaining = rem + 1 :=
      ⟨remaining - 1, by omega⟩
    simp only [Nat.add_zero] at hsucc
    simp [retryGo, hsucc]
  | succ k ih =>
    intro attempt remaining hle hempty hsucc
    obtain ⟨rem, rfl⟩ : ∃ rem, remaining = rem + 1 :=
      ⟨remaining - 1, by omega⟩
    have hemp0 : (f attempt).description = "" :=
      hempty attempt (Nat.le_refl _) (by omega)
    have hrem : rem ≠ 0 := by omega
    have harith : attempt + 1 + k = attempt + (k + 1) := by omega
    have hrec := ih (attempt + 1) rem (by omega)
      (fun a ha1 ha2 => hempty a (by omega) (by omega))
      (by rw [harith]; exact hsucc)
    simp only [retryGo, hemp0, ne_eq, not_true_eq_false, if_false, if_neg hrem,
      Bool.false_eq_true, reduceIte, hrec]
    rw [harith]

theorem retryGo_exhaust (f : Nat → Details) :
    ∀ (remaining attempt : Nat),
    (∀ a, attempt ≤ a → a < attempt + remaining → (f a).description = "") →
    (retryGo f attempt remaining).2 = remaining ∧
    (retryGo f attempt remaining).1.description = "" := by
  intro remaining
  induction remaining with
  | zero => intro attempt _; simp [retryGo, emptyDetails]
  | succ rem ih =>
    intro attempt hempty
    have hemp0 : (f attempt).description = "" :=
      hempty attempt (Nat.le_refl _) (by omega)
    by_cases hrem : rem = 0
    · subst hrem
      simp [retryGo, hemp0]
    · have hrec := ih (attempt + 1) (fun a ha1 ha2 => hempty a (by omega) (by omega))
      simp only [retryGo, hemp0, ne_eq, not_true_eq_false, if_false, if_neg hrem,
        Bool.false_eq_true, reduceIte]
      exact ⟨by rw [hrec.1], hrec.2⟩

theorem scrapeLoop_succ (env : WalkEnv) (cfg : ScraperConfig) (extract : Bool)
    (fuel pass : Nat) (st : WalkState) :
    scrapeLoop env cfg extract (fuel + 1) pass st =
      if cfg.totalTimeoutMs < env.elapsedMs pass then some st.rows
      else if (env.view pass).atBottom = true ∧ cfg.maxIdlePasses ≤
          (if (processRows env cfg extract (env.view pass).rows st.seen false st.rows).2.1
           then 0 else st.idlePasses + 1)
      then some (processRows env cfg extract (env.view pass).rows st.seen false st.rows).2.2
      else scrapeLoop env cfg extract fuel (pass + 1)
        ⟨(processRows env cfg extract (env.view pass).rows st.seen false st.rows).1,
         (if (processRows env cfg extract (env.view pass).rows st.seen false st.rows).2.1
          then 0 else st.idlePasses + 1),
         (processRows env cfg extract (env.view pass).rows st.seen false st.rows).2.2⟩ := rfl

theorem scrapeLoop_nodup (env : WalkEnv) (cfg : ScraperConfig) (extract : Bool) :
    ∀ (fuel pass : Nat) (st : WalkState) (rows : List (Nat × List (String × String))),
    st.seen.Nodup → (st.rows.map Prod.fst).Nodup →
    (∀ i ∈ st.rows.map Prod.fst, i ∈ st.seen) →
    scrapeLoop env cfg extract fuel pass st = some rows →
    (rows.map Prod.fst).Nodup := by
  intro fuel
  induction fuel with
  | zero => intro pass st rows _ _ _ h; exact absurd h (by simp [scrapeLoop])
  | succ fuel ih =>
    intro pass st rows h1 h2 h3 h
    rw [scrapeLoop_succ] at h
    have hinv := processRows_inv env cfg extract (env.view pass).rows st.seen false st.rows h1 h2 h3
    by_cases ht : cfg.totalTimeoutMs < env.elapsedMs pass
    · rw [if_pos ht, Option.some.injEq] at h
      rw [← h]
      exact h2
    · rw [if_neg ht] at h
      split at h <;> split at h
      · rw [Option.some.injEq] at h
        rw [← h]
        exact hinv.2.1
      · exact ih (pass + 1) _ rows hinv.1 hinv.2.1 hinv.2.2 h
      · rw [Option.some.injEq] at h
        rw [← h]
        exact hinv.2.1
      · exact ih (pass + 1) _ rows hinv.1 hinv.2.1 hinv.2.2 h

theorem elapsed_lower (env : WalkEnv)
    (hmono : ∀ n, env.elapsedMs n < env.elapsedMs (n + 1)) :
    ∀ n, n ≤ env.elapsedMs n := by
  intro n
  induction n with
  | zero => exact Nat.zero_le _
  | succ n ih => have := hmono n; omega

theorem scrapeLoop_total (env : WalkEnv) (cfg : ScraperConfig) (extract : Bool)
    (hmono : ∀ n, env.elapsedMs n < env.elapsedMs (n + 1)) :
    ∀ (fuel pass : Nat) (st : WalkState),
    cfg.totalTimeoutMs + 2 ≤ pass + fuel → 1 ≤ fuel →
    (scrapeLoop env cfg extract fuel pass st).isSome = true := by
  intro fuel
  induction fuel with
  | zero => intro pass st _ h; omega
  | succ fuel ih =>
    intro pass st hsum _
    rw [scrapeLoop_succ]
    by_cases ht : cfg.totalTimeoutMs < env.elapsedMs pass
    · simp [ht]
    · rw [if_neg ht]
      have hp : pass ≤ cfg.totalTimeoutMs :=
        Nat.le_trans (elapsed_lower env hmono pass) (Nat.not_lt.mp ht)
      split <;> split
      · rfl
      · exact ih (pass + 1) _ (by omega) (by omega)
      · rfl
      · exact ih (pass + 1) _ (by omega) (by omega)

theorem scrapeLoop_idle_stop (env : WalkEnv) (cfg : ScraperConfig) (extract : Bool) :
    ∀ (m : Nat) (st : WalkState) (n0 : Nat),
    st.idlePasses + m = cfg.maxIdlePasses → 1 ≤ m →
    (∀ k, k < m → env.elapsedMs (n0 + k) ≤ cfg.totalTimeoutMs) →
    (∀ k, k < m → (env.view (n0 + k)).atBottom = true) →
    (∀ k, k < m → ((env.view (n0 + k)).rows).all (rowSkipped st.seen) = true) →
    scrapeLoop env cfg extract m n0 st = some st.rows ∧
    scrapeLoop env cfg extract (m - 1) n0 st = none := by
  intro m
  induction m with
  | zero => intro st n0 _ h1; omega
  | succ m ih =>
    intro st n0 hsum _ helap hbot hskip
    have ht : ¬ cfg.totalTimeoutMs < env.elapsedMs n0 := by
      have := helap 0 (by omega)
      simp only [Nat.add_zero] at this
      omega
    have hpr : processRows env cfg extract (env.view n0).rows st.seen false st.rows
        = (st.seen, false, st.rows) := by
      refine processRows_skip_all env cfg extract _ _ _ _ ?_
      have := hskip 0 (by omega)
      simpa using this
    have hbot0 : (env.view n0).atBottom = true := by
      have := hbot 0 (by omega)
      simpa using this
    by_cases hm0 : m = 0
    · subst hm0
      constructor
      · rw [scrapeLoop_succ, if_neg ht, hpr]
        simp only [Bool.false_eq_true, reduceIte]
        rw [if_pos ⟨hbot0, by omega⟩]
      · rfl
    · obtain ⟨m', rfl⟩ : ∃ m', m = m' + 1 := ⟨m - 1, by omega⟩
      have hcond : ¬ ((env.view n0).atBottom = true ∧ cfg.maxIdlePasses ≤
          (if (processRows env cfg extract (env.view n0).rows st.seen false st.rows).2.1
           then 0 else st.idlePasses + 1)) := by
        rw [hpr]
        simp only [Bool.false_eq_true, reduceIte]
        intro hc
        omega
      have hrec := ih ⟨st.seen, st.idlePasses + 1, st.rows⟩ (n0 + 1)
        (by simp; omega) (by omega)
        (fun k hk => by
          have := helap (k + 1) (by omega)
          simpa [show n0 + (k + 1) = n0 + 1 + k by omega] using this)
        (fun k hk => by
          have := hbot (k + 1) (by omega)
          simpa [show n0 + (k + 1) = n0 + 1 + k by omega] using this)
        (fun k hk => by
          have := hskip (k + 1) (by omega)
          simpa [show n0 + (k + 1) = n0 + 1 + k by omega] using this)
      constructor
      · rw [scrapeLoop_succ, if_neg ht, if_neg hcond, hpr]
        exact hrec.1
      · show scrapeLoop env cfg extract (m' + 1) n0 st = none
        rw [scrapeLoop_succ, if_neg ht, if_neg hcond, hpr]
        simpa using hrec.2

theorem processRows_shape (env : WalkEnv) (cfg : ScraperConfig) (extract : Bool) :
    ∀ (rows : List RenderedRow) (seen : List Nat) (b : Bool)
      (acc : List (Nat × List (String × String))),
    (∀ p ∈ acc, EmittedShape extract p) →
    ∀ p ∈ (processRows env cfg extract rows seen b acc).2.2, EmittedShape extract p := by
  intro rows
  induction rows with
  | nil => intro seen b acc hacc; exact hacc
  | cons r rest ih =>
    intro seen b acc hacc
    cases hd : deriveIdx r with
    | none =>
      rw [processRows_cons_none env cfg extract r rest seen b acc hd]
      exact ih _ _ _ hacc
    | some i =>
      by_cases hs : i ∈ seen
      · rw [processRows_cons_seen env cfg extract r rest seen b acc i hd hs]
        exact ih _ _ _ hacc
      · rw [processRows_cons_new env cfg extract r rest seen b acc i hd hs]
        refine ih _ _ _ ?_
        intro p hp
        rw [List.mem_append] at hp
        rcases hp with hp | hp
        · exact hacc p hp
        · rw [List.mem_singleton] at hp
          subst hp
          exact ⟨r.cells, _, rfl, fun hf => by simp [hf]⟩

theorem scrapeLoop_shape (env : WalkEnv) (cfg : ScraperConfig) (extract : Bool) :
    ∀ (fuel pass : Nat) (st : WalkState) (rows : List (Nat × List (String × String))),
    (∀ p ∈ st.rows, EmittedShape extract p) →
    scrapeLoop env cfg extract fuel pass st = some rows →
    ∀ p ∈ rows, EmittedShape extract p := by
  intro fuel
  induction fuel with
  | zero => intro pass st rows _ h; exact absurd h (by simp [scrapeLoop])
  | succ fuel ih =>
    intro pass st rows hst h
    rw [scrapeLoop_succ] at h
    have hsh := processRows_shape env cfg extract (env.view pass).rows st.seen false st.rows hst
    by_cases ht : cfg.totalTimeoutMs < env.elapsedMs pass
    · rw [if_pos ht, Option.some.injEq] at h
      rw [← h]
      exact hst
    · rw [if_neg ht] at h
      split at h <;> split at h
      · rw [Option.some.injEq] at h
        rw [← h]
        exact hsh
      · exact ih (pass + 1) _ rows hsh h
      · rw [Option.some.injEq] at h
        rw [← h]
        exact hsh
      · exact ih (pass + 1) _ rows hsh h

theorem pyIsDigit_of_trailingDigitsMatch (s d : String)
    (h : trailingDigitsMatch s = some d) : pyIsDigit d = true := by
  simp only [trailingDigitsMatch] at h
  split at h
  · exact absurd h (by simp)
  · split at h
    · rw [Option.some.injEq] at h
      subst h
      rename_i hne _
      simp only [pyIsDigit, String.mk]
      rw [Bool.and_eq_true]
      constructor
      · simpa using hne
      · simp [List.all_reverse]
    · exact absurd h (by simp)

theorem findReleaseKey_eq_none (title : String) :
    ∀ mapping : List (String × String),
    (∀ p ∈ mapping, pyStartsWith (pyLower title) (pyLower p.1) = false) →
    findReleaseKey title mapping = none := by
  intro mapping
  induction mapping with
  | nil => intro _; rfl
  | cons p rest ih =>
    intro h
    obtain ⟨k, v⟩ := p
    have h0 := h (k, v) (List.mem_cons_self _ _)
    simp only at h0
    simp only [findReleaseKey, h0, Bool.false_eq_true, reduceIte]
    exact ih fun q hq => h q (List.mem_cons_of_mem _ hq)

theorem findReleaseKey_sound (title : String) :
    ∀ (mapping : List (String × String)) (kv : String × String),
    findReleaseKey title mapping = some kv →
    kv ∈ mapping ∧ pyStartsWith (pyLower title) (pyLower kv.1) = true := by
  intro mapping
  induction mapping with
  | nil => intro kv h; cases h
  | cons p rest ih =>
    intro kv h
    obtain ⟨k, v⟩ := p
    by_cases hc : pyStartsWith (pyLower title) (pyLower k) = true
    · rw [findReleaseKey, if_pos hc, Option.some.injEq] at h
      subst h
      exact ⟨List.mem_cons_self _ _, hc⟩
    · rw [findReleaseKey, if_neg hc] at h
      obtain ⟨hmem, hstart⟩ := ih kv h
      exact ⟨List.mem_cons_of_mem _ hmem, hstart⟩

/-! ## Claims -/

/-- Claim C1: for every completed walk, the emitted row sequence contains no
two rows derived from the same index — once an index enters the seen-index
set, later rows carrying it are skipped, so the indices paired with the
emitted rows are pairwise distinct, and the walker returns exactly the row
objects of that trace. -/
theorem claim1_index_uniqueness (env : WalkEnv) (cfg : ScraperConfig) (extract : Bool)
    (rows : List (Nat × List (String × String)))
    (h : scrapeTrace env cfg extract = some rows) :
    (rows.map Prod.fst).Nodup ∧
    scrape_details_list env cfg extract = some (rows.map Prod.snd) := by
  constructor
  · exact scrapeLoop_nodup env cfg extract _ 0 initWalkState rows
      (by simp [initWalkState]) (by simp [initWalkState]) (by simp [initWalkState]) h
  · rw [scrape_details_list, h, Option.map_some']

/-- Witness for C1 at a concrete two-row environment. -/
theorem claim1_index_uniqueness_witness :
    (rowsW.map Prod.fst).Nodup ∧
    scrape_details_list envW cfgW false = some (rowsW.map Prod.snd) :=
  claim1_index_uniqueness envW cfgW false rowsW (by decide)

/-- Claim C2: whenever wall-clock time advances strictly between passes, the
walk terminates (within the `totalTimeoutMs + 2` pass bound implied by the
millisecond budget) returning its accumulated rows as a normal result, and a
pass that observes elapsed time beyond `totalTimeoutMs` returns the rows
accumulated so far rather than an error. -/
theorem claim2_timeout_termination (env : WalkEnv) (cfg : ScraperConfig) (extract : Bool)
    (hmono : ∀ n, env.elapsedMs n < env.elapsedMs (n + 1)) :
    (scrape_details_list env cfg extract).isSome = true ∧
    (∀ (fuel pass : Nat) (st : WalkState), cfg.totalTimeoutMs < env.elapsedMs pass →
       scrapeLoop env cfg extract (fuel + 1) pass st = some st.rows) := by
  constructor
  · have h := scrapeLoop_total env cfg extract hmono (cfg.totalTimeoutMs + 2) 0
      initWalkState (by omega) (by omega)
    rw [Option.isSome_iff_exists] at h
    obtain ⟨v, hv⟩ := h
    rw [scrape_details_list, scrapeTrace, hv, Option.map_some']
    rfl
  · intro fuel pass st h
    rw [scrapeLoop_succ, if_pos h]

/-- Witness for C2 at an environment that never stabilizes: the walk still
returns, and the pass past the budget returns the accumulated rows. -/
theorem claim2_timeout_termination_witness :
    (scrape_details_list envC2 cfgC2 true).isSome = true ∧
    scrapeLoop envC2 cfgC2 true 1 4 initWalkState = some [] :=
  ⟨(claim2_timeout_termination envC2 cfgC2 true fun n => Nat.lt_succ_self n).1,
   (claim2_timeout_termination envC2 cfgC2 true fun n => Nat.lt_succ_self n).2
     0 4 initWalkState (by decide)⟩

/-- Claim C3: starting from an idle counter of zero, against passes that are
at maximum scroll and yield no previously-unseen rows (while the budget is
not exceeded), the walk stops successfully after exactly `maxIdlePasses`
consecutive idle passes — it returns its accumulated rows with that many
passes of fuel, and with one pass less it has not yet stopped. -/
theorem claim3_idle_threshold (env : WalkEnv) (cfg : ScraperConfig) (extract : Bool)
    (st : WalkState) (n0 : Nat)
    (hidle : st.idlePasses = 0) (hmax : 1 ≤ cfg.maxIdlePasses)
    (helap : ∀ k, k < cfg.maxIdlePasses → env.elapsedMs (n0 + k) ≤ cfg.totalTimeoutMs)
    (hbot : ∀ k, k < cfg.maxIdlePasses → (env.view (n0 + k)).atBottom = true)
    (hskip : ∀ k, k < cfg.maxIdlePasses →
        ((env.view (n0 + k)).rows).all (rowSkipped st.seen) = true) :
    scrapeLoop env cfg extract cfg.maxIdlePasses n0 st = some st.rows ∧
    scrapeLoop env cfg extract (cfg.maxIdlePasses - 1) n0 st = none :=
  scrapeLoop_idle_stop env cfg extract cfg.maxIdlePasses st n0 (by omega) hmax
    helap hbot hskip

/-- Witness for C3: with an idle threshold of 2, the walk stops with 2 passes
of fuel and not with 1. -/
theorem claim3_idle_threshold_witness :
    scrapeLoop envC3 cfgC3 false 2 0 stC3 = some stC3.rows ∧
    scrapeLoop envC3 cfgC3 false 1 0 stC3 = none :=
  claim3_idle_threshold envC3 cfgC3 false stC3 0 rfl (by decide) (by decide)
    (by decide) (by decide)

/-- Claim C4: for a newly-seen row processed with detail extraction enabled,
if the detail extractor yields an empty description on the first k attempts
and a non-empty one on attempt k+1 (with k+1 within the retry cap), the
retry loop invokes it exactly k+1 times and the emitted row carries the
url/description/overview of that last attempt. -/
theorem claim4_retry_until_success (env : WalkEnv) (cfg : ScraperConfig)
    (r : RenderedRow) (i k : Nat) (seen : List Nat)
    (acc : List (Nat × List (String × String)))
    (hidx : deriveIdx r = some i) (hnew : i ∉ seen)
    (hcap : k + 1 ≤ cfg.maxRetryAttempts)
    (hempty : ∀ a, a ≤ k → 1 ≤ a → ((env.details i) a).description = "")
    (hsucc : ((env.details i) (k + 1)).description ≠ "") :
    runRetries (env.details i) cfg.maxRetryAttempts = (env.details i (k + 1), k + 1) ∧
    processRows env cfg true [r] seen false acc
      = (i :: seen, true,
         acc ++ [(i, attachDetails (buildFields r.cells) (env.details i (k + 1)))]) := by
  have harith : 1 + k = k + 1 := by omega
  have h1 : runRetries (env.details i) cfg.maxRetryAttempts
      = (env.details i (k + 1), k + 1) := by
    rw [runRetries]
    have h := retryGo_success (env.details i) k 1 cfg.maxRetryAttempts (by omega)
      (fun a ha1 ha2 => hempty a (by omega) ha1) (by rw [harith]; exact hsucc)
    rw [harith] at h
    exact h
  refine ⟨h1, ?_⟩
  rw [processRows_cons_new env cfg true r [] seen false acc i hidx hnew, processRows_nil]
  simp [h1]

/-- Witness for C4: success on the second attempt (k = 1) out of 3 allowed. -/
theorem claim4_retry_until_success_witness :
    runRetries (envC4.details 0) cfgC4.maxRetryAttempts = (envC4.details 0 2, 2) ∧
    processRows envC4 cfgC4 true [rowA] [] false []
      = ([0], true, [(0, attachDetails (buildFields rowA.cells) (envC4.details 0 2))]) :=
  claim4_retry_until_success envC4 cfgC4 rowA 0 1 [] [] (by decide) (by simp)
    (by decide) (by decide) (by decide)

/-- Claim C5: for a newly-seen row processed with detail extraction enabled,
if the detail extractor yields an empty description on every attempt, the
retry loop invokes it exactly `maxRetryAttempts` times and the emitted row's
description field is the empty string. -/
theorem claim5_retry_exhaustion (env : WalkEnv) (cfg : ScraperConfig)
    (r : RenderedRow) (i : Nat) (seen : List Nat)
    (acc : List (Nat × List (String × String)))
    (hidx : deriveIdx r = some i) (hnew : i ∉ seen)
    (hempty : ∀ a, a ≤ cfg.maxRetryAttempts → 1 ≤ a →
        ((env.details i) a).description = "") :
    (runRetries (env.details i) cfg.maxRetryAttempts).2 = cfg.maxRetryAttempts ∧
    (runRetries (env.details i) cfg.maxRetryAttempts).1.description = "" ∧
    processRows env cfg true [r] seen false acc
      = (i :: seen, true,
         acc ++ [(i, attachDetails (buildFields r.cells)
             (runRetries (env.details i) cfg.maxRetryAttempts).1)]) ∧
    dictGet (attachDetails (buildFields r.cells)
        (runRetries (env.details i) cfg.maxRetryAttempts).1) "description" = some "" := by
  have h := retryGo_exhaust (env.details i) cfg.maxRetryAttempts 1
    (fun a ha1 ha2 => hempty a (by omega) ha1)
  refine ⟨h.1, h.2, ?_, ?_⟩
  · rw [processRows_cons_new env cfg true r [] seen false acc i hidx hnew, processRows_nil]
    simp
  · rw [dictGet_attachDetails_description, runRetries, h.2]

/-- Witness for C5: a permanently empty description exhausts all 3 attempts. -/
theorem claim5_retry_exhaustion_witness :
    (runRetries (envC5.details 0) cfgC4.maxRetryAttempts).2 = cfgC4.maxRetryAttempts ∧
    (runRetries (envC5.details 0) cfgC4.maxRetryAttempts).1.description = "" ∧
    processRows envC5 cfgC4 true [rowA] [] false []
      = ([0], true, [(0, attachDetails (buildFields rowA.cells)
          (runRetries (envC5.details 0) cfgC4.maxRetryAttempts).1)]) ∧
    dictGet (attachDetails (buildFields rowA.cells)
        (runRetries (envC5.details 0) cfgC4.maxRetryAttempts).1) "description" = some "" :=
  claim5_retry_exhaustion envC5 cfgC4 rowA 0 [] [] (by decide) (by simp) (by decide)

/-- Claim C6 counterexample: the claim asserts that on any failure of the
open/locate/extract/close sequence — including the details frame not being
found — the all-empty result is returned after attempting the close-fallback
chain.  But in the frame-not-found path the code returns all-empty directly
(browser_helpers.py lines 469-471) without running the `except` block's
close-fallback chain: at the concrete environment `rdNoFrame` the chain is
not attempted. -/
theorem claim6_counterexample :
    ¬ ∀ env : RowDetailEnv,
        (env.openRaises = true ∨ env.findRaises = true ∨ env.frameFound = false) →
        (extract_row_details env).1 = emptyDetails ∧
        (extract_row_details env).2.2 = true := by
  intro h
  have hc := (h rdNoFrame (Or.inr (Or.inr rfl))).2
  exact absurd hc (by decide)

/-- Claim C6 amended: `extract_row_details` is total (never raises) and each
failure mode degrades to the all-empty result; the close-fallback chain is
attempted exactly on the exception paths (open or locate raising), while the
frame-not-found path returns all-empty directly without it; on success the
three extracted fields are returned stripped. -/
theorem claim6_amended (env : RowDetailEnv) :
    ((env.openRaises = true ∨ env.findRaises = true) →
        extract_row_details env = (emptyDetails, false, true)) ∧
    (env.openRaises = false → env.findRaises = false → env.frameFound = false →
        extract_row_details env = (emptyDetails, false, false)) ∧
    (env.openRaises = false → env.findRaises = false → env.frameFound = true →
        extract_row_details env
          = (⟨pyStrip env.urlText, pyStrip env.descriptionText, pyStrip env.overviewText⟩,
             true, false)) := by
  obtain ⟨o, f, ff, a, b, c⟩ := env
  cases o <;> cases f <;> cases ff <;> simp [extract_row_details]

/-- Witness for C6 (amended): an open-step exception triggers the fallback
chain; a missing frame returns all-empty without it. -/
theorem claim6_amended_witness :
    extract_row_details rdOpenRaises = (emptyDetails, false, true) ∧
    extract_row_details rdNoFrame = (emptyDetails, false, false) :=
  ⟨(claim6_amended rdOpenRaises).1 (Or.inl rfl),
   (claim6_amended rdNoFrame).2.1 rfl rfl rfl⟩

/-- Claim C7: every emitted row object carries the keys url, description and
overview mapped to string values (the detail fields attached over column
fields built from rendered cells), and when detail extraction is disabled
those three values are the empty string. -/
theorem claim7_row_fields (env : WalkEnv) (cfg : ScraperConfig) (extract : Bool)
    (rows : List (Nat × List (String × String)))
    (h : scrapeTrace env cfg extract = some rows) :
    ∀ p ∈ rows, ∃ cells det,
      p.2 = attachDetails (buildFields cells) det ∧
      dictGet p.2 "url" = some det.url ∧
      dictGet p.2 "description" = some det.description ∧
      dictGet p.2 "overview" = some det.overview ∧
      (extract = false → det = emptyDetails) := by
  intro p hp
  obtain ⟨cells, det, hshape, hdet⟩ :=
    scrapeLoop_shape env cfg extract _ 0 initWalkState rows (by simp [initWalkState]) h p hp
  refine ⟨cells, det, hshape, ?_, ?_, ?_, hdet⟩
  · rw [hshape]
    exact dictGet_attachDetails_url _ _
  · rw [hshape]
    exact dictGet_attachDetails_description _ _
  · rw [hshape]
    exact dictGet_attachDetails_overview _ _

/-- Witness for C7: in a walk with extraction disabled, the second emitted
row maps all three detail keys to the empty string. -/
theorem claim7_row_fields_witness :
    dictGet [("title", "Hello"), ("url", ""), ("description", ""), ("overview", "")]
        "url" = some "" ∧
    dictGet [("title", "Hello"), ("url", ""), ("description", ""), ("overview", "")]
        "description" = some "" ∧
    dictGet [("title", "Hello"), ("url", ""), ("description", ""), ("overview", "")]
        "overview" = some "" := by
  obtain ⟨c, d, h1, h2, h3, h4, h5⟩ :=
    claim7_row_fields envW cfgW false rowsW (by decide)
      (1, [("title", "Hello"), ("url", ""), ("description", ""), ("overview", "")])
      (by decide)
  rw [h5 rfl] at h2 h3 h4
  exact ⟨h2, h3, h4⟩

/-- Claim C8: each pane extractor is total and returns the empty string when
the details frame is already detached, when any step raises, and when its
landmark heading is not found. -/
theorem claim8_pane_extractors (e1 : OverviewEnv) (e2 : UrlEnv) (e3 : DescriptionEnv) :
    (e1.detached = true → extract_overview e1 = "") ∧
    (e1.raises = true → extract_overview e1 = "") ∧
    (e1.h3Count = 0 → extract_overview e1 = "") ∧
    (e2.detached = true → extract_url e2 = "") ∧
    (e2.raises = true → extract_url e2 = "") ∧
    (e2.h3Count = 0 → extract_url e2 = "") ∧
    (e3.detached = true → extract_description e3 = "") ∧
    (e3.raises = true → extract_description e3 = "") ∧
    (e3.whatChangingH3Count = 0 → e3.roadmapH3Count = 0 →
        extract_description e3 = "") := by
  obtain ⟨d1, r1, h1, s1, t1⟩ := e1
  obtain ⟨d2, r2, h2, l2, a2⟩ := e2
  obtain ⟨d3, r3, w3, n3, nt3, ro3, p3, pt3⟩ := e3
  refine ⟨?_, ?_, ?_, ?_, ?_, ?_, ?_, ?_, ?_⟩
  · intro h
    subst h
    simp [extract_overview]
  · intro h
    subst h
    cases d1 <;> simp [extract_overview]
  · intro h
    subst h
    cases d1 <;> cases r1 <;> simp [extract_overview]
  · intro h
    subst h
    simp [extract_url]
  · intro h
    subst h
    cases d2 <;> simp [extract_url]
  · intro h
    subst h
    cases d2 <;> cases r2 <;> simp [extract_url]
  · intro h
    subst h
    simp [extract_description]
  · intro h
    subst h
    cases d3 <;> simp [extract_description]
  · intro hw hr
    subst hw
    subst hr
    cases d3 <;> cases r3 <;> simp [extract_description]

/-- Witness for C8: a detached overview frame, a raising url step, and a
description pane with neither landmark all yield the empty string. -/
theorem claim8_pane_extractors_witness :
    extract_overview ⟨true, false, 1, 1, "t"⟩ = "" ∧
    extract_url ⟨false, true, 1, 1, some "h"⟩ = "" ∧
    extract_description ⟨false, false, 0, 0, "x", 0, 1, "p"⟩ = "" :=
  ⟨(claim8_pane_extractors ⟨true, false, 1, 1, "t"⟩ ⟨false, true, 1, 1, some "h"⟩
      ⟨false, false, 0, 0, "x", 0, 1, "p"⟩).1 rfl,
   (claim8_pane_extractors ⟨true, false, 1, 1, "t"⟩ ⟨false, true, 1, 1, some "h"⟩
      ⟨false, false, 0, 0, "x", 0, 1, "p"⟩).2.2.2.2.1 rfl,
   (claim8_pane_extractors ⟨true, false, 1, 1, "t"⟩ ⟨false, true, 1, 1, some "h"⟩
      ⟨false, false, 0, 0, "x", 0, 1, "p"⟩).2.2.2.2.2.2.2.2 rfl rfl⟩

/-- Claim C9 counterexample: a row whose `data-item-index` attribute is
present but empty and whose element id is `row-3`.  Under the claim's rule —
id fallback only when the attribute is missing — no index is derivable, so
the row should be skipped and contribute nothing; the code instead derives
index 3 and emits a row for it. -/
theorem claim9_counterexample :
    claimDeriveIdx rowC9 = none ∧ deriveIdx rowC9 = some 3 ∧
    (processRows envW cfgW false [rowC9] [] false []).2.2
      = [(3, [("url", ""), ("description", ""), ("overview", "")])] :=
  ⟨by decide, by decide, by decide⟩

/-- Claim C9 amended: the index is derived primarily from `data-item-index`;
the id-trailing-digit fallback applies when that attribute is missing OR
empty; rows with no derivable index and rows whose index is already seen are
skipped and contribute nothing. -/
theorem claim9_amended :
    (∀ (r : RenderedRow) (s : String), r.dataItemIndex = some s → s ≠ "" →
        deriveIdx r = (if pyIsDigit s then some (digitsToNat s) else none)) ∧
    (∀ (r : RenderedRow) (rid d : String), attrFalsy r.dataItemIndex = true →
        r.id = some rid → rid ≠ "" → trailingDigitsMatch rid = some d →
        deriveIdx r = some (digitsToNat d)) ∧
    (∀ (env : WalkEnv) (cfg : ScraperConfig) (extract : Bool) (r : RenderedRow)
        (rest : List RenderedRow) (seen : List Nat) (b : Bool)
        (acc : List (Nat × List (String × String))),
      (deriveIdx r = none ∨ ∃ i, deriveIdx r = some i ∧ i ∈ seen) →
      processRows env cfg extract (r :: rest) seen b acc
        = processRows env cfg extract rest seen b acc) := by
  refine ⟨?_, ?_, ?_⟩
  · intro r s hattr hs
    have hfal : attrFalsy (some s) = false := by
      simpa [attrFalsy] using hs
    simp only [deriveIdx, hattr, hfal, Bool.false_eq_true, reduceIte]
  · intro r rid d hfal hid hrid hm
    have hdig := pyIsDigit_of_trailingDigitsMatch rid d hm
    simp only [deriveIdx, hfal, reduceIte, hid, ne_eq, hrid, not_false_eq_true,
      if_true, hm, hdig]
  · intro env cfg extract r rest seen b acc h
    rcases h with h | ⟨i, hi, hmem⟩
    · exact processRows_cons_none env cfg extract r rest seen b acc h
    · exact processRows_cons_seen env cfg extract r rest seen b acc i hi hmem

/-- Witness for C9 (amended): a digit attribute, the empty-attribute
fallback, and the skip of an already-seen index, each at a concrete input. -/
theorem claim9_amended_witness :
    deriveIdx rowB = some 1 ∧ deriveIdx rowC9 = some 3 ∧
    processRows envW cfgW false [rowA] [0] false [] = ([0], false, []) :=
  ⟨(claim9_amended.1 rowB "1" rfl (by decide)).trans (by decide),
   (claim9_amended.2.1 rowC9 "row-3" "3" (by decide) rfl (by decide) (by decide)).trans
     (by decide),
   (claim9_amended.2.2 envW cfgW false rowA [] [0] false []
     (Or.inr ⟨0, by decide, by decide⟩)).trans (by decide)⟩

/-- Claim C10: a title starting (case-insensitively) with no key of the
release-type mapping is returned unchanged with an empty release type; a
title starting with a key yields that key's mapped value and the remainder
after the key, stripped, with at most one leading separator among the four
configured ones removed (and re-stripped, as the code does). -/
theorem claim10_release_type (mapping : List (String × String)) (title : String) :
    ((∀ p ∈ mapping, pyStartsWith (pyLower title) (pyLower p.1) = false) →
        extract_release_type_from_title mapping title = ("", title)) ∧
    (∀ k v, findReleaseKey title mapping = some (k, v) →
        (k, v) ∈ mapping ∧ pyStartsWith (pyLower title) (pyLower k) = true ∧
        extract_release_type_from_title mapping title
          = (v, removeLeadingSep (pyStrip (pyDrop title k.data.length)))) ∧
    (∀ r : String, removeLeadingSep r = r ∨
        ∃ sep ∈ (["-", ":", "–", "—"] : List String), pyStartsWith r sep = true ∧
          removeLeadingSep r = pyStrip (pyDrop r 1)) := by
  refine ⟨?_, ?_, ?_⟩
  · intro h
    simp only [extract_release_type_from_title, findReleaseKey_eq_none title mapping h]
  · intro k v h
    obtain ⟨hmem, hstart⟩ := findReleaseKey_sound title mapping (k, v) h
    refine ⟨hmem, hstart, ?_⟩
    simp only [extract_release_type_from_title, h]
  · intro r
    rw [removeLeadingSep]
    split_ifs with hc1 hc2 hc3 hc4
    · exact Or.inr ⟨"-", by simp, hc1, rfl⟩
    · exact Or.inr ⟨":", by simp, hc2, rfl⟩
    · exact Or.inr ⟨"–", by simp, hc3, rfl⟩
    · exact Or.inr ⟨"—", by simp, hc4, rfl⟩
    · exact Or.inl rfl

/-- Witness for C10: a concrete mapping and title, matched case-insensitively,
with the `:` separator removed from the remainder. -/
theorem claim10_release_type_witness :
    extract_release_type_from_title [("Public Preview", "Preview")]
        "public preview: Something new" = ("Preview", "Something new") :=
  (((claim10_release_type [("Public Preview", "Preview")]
      "public preview: Something new").2.1 "Public Preview" "Preview"
      (by decide)).2.2).trans (by decide)

end Entra
